import Mathlib

/-!
Verification development for the meitre-mcp server.

This file gives a shallow embedding of the server's core:
the AES-GCM token encryption wrapper (`src/lib/crypto.ts`),
the credential-keyed token cache (`src/db/index.ts`),
the upstream API client `MeitreAPI` (`src/lib/meitre.ts`),
the tool registry (`src/mcp/tools.ts`) and the JSON-RPC dispatcher
`handleMcpRequest` (`src/mcp/server.ts`), together with theorems about them.

Platform primitives that are external to the repository (Web Crypto
`crypto.subtle`, `TextEncoder`/`TextDecoder`, `btoa`/`atob`, `fetch`,
the D1 database) are modelled explicitly; each such model carries a doc
comment saying what it stands for.  Effectful code is embedded by explicit
state passing over an `ApiState` record, with an event log recording every
database operation and upstream HTTP request, and upstream responses are
delivered by a script held in the state (the model of the network).
-/

/-! ## Base64 (model of the platform primitives `btoa` / `atob`)

The server stores `btoa(iv ++ ciphertext)` in the cache and feeds the cache
contents back through `atob`.  `btoa`/`atob` are platform primitives, not
repository code; they are modelled here as RFC 4648 base64 over byte lists,
with a strict (canonical) decoder. -/

/-- The base64 alphabet, indexed by a sextet value below 64. -/
def b64CharCore (m : Nat) : Char :=
  if m < 26 then Char.ofNat (65 + m)
  else if m < 52 then Char.ofNat (97 + (m - 26))
  else if m < 62 then Char.ofNat (48 + (m - 52))
  else if m = 62 then '+'
  else '/'

/-- Alphabet lookup for an arbitrary sextet (reduced mod 64 first). -/
def b64Char (n : Nat) : Char := b64CharCore (n % 64)

/-- Inverse alphabet lookup: `some` exactly on the 64 alphabet characters. -/
def b64CharVal (c : Char) : Option Nat :=
  if 65 ≤ c.toNat ∧ c.toNat ≤ 90 then some (c.toNat - 65)
  else if 97 ≤ c.toNat ∧ c.toNat ≤ 122 then some (c.toNat - 97 + 26)
  else if 48 ≤ c.toNat ∧ c.toNat ≤ 57 then some (c.toNat - 48 + 52)
  else if c.toNat = 43 then some 62
  else if c.toNat = 47 then some 63
  else none

/-- Base64 encoding of a byte list, three bytes to four characters, with
`=`-padding on the final partial group (the behaviour of `btoa`). -/
def b64encodeBytes : List Nat → List Char
  | [] => []
  | [a] => [b64Char (a / 4), b64Char (a % 4 * 16), '=', '=']
  | [a, b] => [b64Char (a / 4), b64Char (a % 4 * 16 + b / 16), b64Char (b % 16 * 4), '=']
  | a :: b :: c :: rest =>
    b64Char (a / 4) :: b64Char (a % 4 * 16 + b / 16) :: b64Char (b % 16 * 4 + c / 64) ::
      b64Char (c % 64) :: b64encodeBytes rest

/-- Strict base64 decoding (the model of `atob`): requires whole groups of
four characters, `=`-padding only in the final group, and zero padding bits,
and fails (`none`) otherwise. -/
def b64decodeChars : List Char → Option (List Nat)
  | [] => some []
  | p :: q :: r :: t :: rest =>
    match b64CharVal p, b64CharVal q with
    | some x, some y =>
      if r = '=' then
        if t = '=' ∧ rest = [] ∧ y % 16 = 0 then some [x * 4 + y / 16] else none
      else
        match b64CharVal r with
        | some z =>
          if t = '=' then
            if rest = [] ∧ z % 4 = 0 then some [x * 4 + y / 16, y % 16 * 16 + z / 4] else none
          else
            match b64CharVal t with
            | some w =>
              (b64decodeChars rest).map
                (fun bs => (x * 4 + y / 16) :: (y % 16 * 16 + z / 4) :: (z % 4 * 64 + w) :: bs)
            | none => none
        | none => none
    | _, _ => none
  | _ => none

/-- `btoa`, modelled: byte list to base64 string. -/
def btoa (bs : List Nat) : String := ⟨b64encodeBytes bs⟩

/-- `atob`, modelled: base64 string to byte list, `none` where the real
`atob` throws. -/
def atob (s : String) : Option (List Nat) := b64decodeChars s.data

theorem b64CharVal_core : ∀ m, m < 64 → b64CharVal (b64CharCore m) = some m := by
  decide

theorem b64CharVal_b64Char (n : Nat) : b64CharVal (b64Char n) = some (n % 64) :=
  b64CharVal_core (n % 64) (Nat.mod_lt n (by omega))

theorem b64CharCore_ne_eq : ∀ m, m < 64 → b64CharCore m ≠ '=' := by
  decide

theorem b64Char_ne_eq (n : Nat) : b64Char n ≠ '=' :=
  b64CharCore_ne_eq (n % 64) (Nat.mod_lt n (by omega))

theorem b64CharVal_lt (c : Char) (v : Nat) (h : b64CharVal c = some v) : v < 64 := by
  unfold b64CharVal at h
  split at h <;> [skip; split at h] <;> [skip; skip; split at h] <;>
    [skip; skip; skip; split at h] <;> [skip; skip; skip; skip; split at h] <;>
    simp_all <;> omega

theorem b64Char_eq_core (v : Nat) (hv : v < 64) : b64Char v = b64CharCore v := by
  unfold b64Char
  rw [Nat.mod_eq_of_lt hv]

theorem b64CharVal_inv (c : Char) (v : Nat) (h : b64CharVal c = some v) :
    b64Char v = c := by
  have hv := b64CharVal_lt c v h
  rw [b64Char_eq_core v hv]
  unfold b64CharVal at h
  unfold b64CharCore
  split at h
  · simp only [Option.some.injEq] at h
    subst h
    rw [if_pos (by omega)]
    have h65 : 65 + (c.toNat - 65) = c.toNat := by omega
    rw [h65, Char.ofNat_toNat]
  · split at h
    · simp only [Option.some.injEq] at h
      subst h
      rw [if_neg (by omega), if_pos (by omega)]
      have h97 : 97 + (c.toNat - 97 + 26 - 26) = c.toNat := by omega
      rw [h97, Char.ofNat_toNat]
    · split at h
      · simp only [Option.some.injEq] at h
        subst h
        rw [if_neg (by omega), if_neg (by omega), if_pos (by omega)]
        have h48 : 48 + (c.toNat - 48 + 52 - 52) = c.toNat := by omega
        rw [h48, Char.ofNat_toNat]
      · split at h
        · simp only [Option.some.injEq] at h
          have hv43 : v = 62 := h.symm
          subst hv43
          norm_num
          have h43 : c.toNat = 43 := by omega
          have hc43 : c = Char.ofNat c.toNat := (Char.ofNat_toNat c).symm
          rw [hc43, h43]
        · split at h
          · simp only [Option.some.injEq] at h
            have hv47 : v = 63 := h.symm
            subst hv47
            norm_num
            have h47 : c.toNat = 47 := by omega
            have hc47 : c = Char.ofNat c.toNat := (Char.ofNat_toNat c).symm
            rw [hc47, h47]
          · exact absurd h (by simp)

theorem b64decodeChars_nil1 (p : Char) : b64decodeChars [p] = none := rfl

theorem b64decodeChars_nil2 (p q : Char) : b64decodeChars [p, q] = none := rfl

theorem b64decodeChars_nil3 (p q r : Char) : b64decodeChars [p, q, r] = none := rfl

theorem b64_decode_encode : ∀ bs : List Nat, (∀ b ∈ bs, b < 256) →
    b64decodeChars (b64encodeBytes bs) = some bs
  | [], _ => rfl
  | [a], h => by
    have ha : a < 256 := h a (by simp)
    simp only [b64encodeBytes, b64decodeChars, b64CharVal_b64Char, if_true, true_and]
    rw [if_pos (by omega)]
    have h1 : a / 4 % 64 * 4 + a % 4 * 16 % 64 / 16 = a := by omega
    rw [h1]
  | [a, b], h => by
    have ha : a < 256 := h a (by simp)
    have hb : b < 256 := h b (by simp)
    simp only [b64encodeBytes, b64decodeChars, b64CharVal_b64Char, if_true, true_and]
    rw [if_neg (b64Char_ne_eq (b % 16 * 4))]
    rw [if_pos (by omega)]
    have h1 : a / 4 % 64 * 4 + (a % 4 * 16 + b / 16) % 64 / 16 = a := by omega
    have h2 : (a % 4 * 16 + b / 16) % 64 % 16 * 16 + b % 16 * 4 % 64 / 4 = b := by omega
    rw [h1, h2]
  | a :: b :: c :: rest, h => by
    have ha : a < 256 := h a (by simp)
    have hb : b < 256 := h b (by simp)
    have hc : c < 256 := h c (by simp)
    have ih := b64_decode_encode rest (fun x hx => h x (by simp [hx]))
    show b64decodeChars (b64Char (a / 4) :: b64Char (a % 4 * 16 + b / 16) ::
      b64Char (b % 16 * 4 + c / 64) :: b64Char (c % 64) :: b64encodeBytes rest) = _
    simp only [b64decodeChars, b64CharVal_b64Char]
    rw [if_neg (b64Char_ne_eq (b % 16 * 4 + c / 64)), if_neg (b64Char_ne_eq (c % 64))]
    rw [ih]
    simp only [Option.map_some', Option.some.injEq, List.cons.injEq]
    exact ⟨by omega, by omega, by omega, trivial⟩

theorem b64_encode_decode : ∀ (cs : List Char) (bs : List Nat),
    b64decodeChars cs = some bs → b64encodeBytes bs = cs
  | [], bs, h => by
    simp only [b64decodeChars, Option.some.injEq] at h
    subst h
    rfl
  | [p], bs, h => by simp [b64decodeChars_nil1] at h
  | [p, q], bs, h => by simp [b64decodeChars_nil2] at h
  | [p, q, r], bs, h => by simp [b64decodeChars_nil3] at h
  | p :: q :: r :: t :: rest, bs, h => by
    show b64encodeBytes bs = p :: q :: r :: t :: rest
    simp only [b64decodeChars] at h
    cases hvp : b64CharVal p with
    | none => rw [hvp] at h; simp at h
    | some x =>
    cases hvq : b64CharVal q with
    | none => rw [hvp, hvq] at h; simp at h
    | some y =>
    rw [hvp, hvq] at h
    simp only at h
    have hx := b64CharVal_lt p x hvp
    have hy := b64CharVal_lt q y hvq
    by_cases hr : r = '='
    · rw [if_pos hr] at h
      split at h
      · rename_i hcond
        obtain ⟨ht, hrest, hy16⟩ := hcond
        simp only [Option.some.injEq] at h
        subst hrest ht hr
        rw [← h]
        show b64encodeBytes [x * 4 + y / 16] = _
        have e1 : (x * 4 + y / 16) / 4 = x := by omega
        have e2 : (x * 4 + y / 16) % 4 * 16 = y := by omega
        simp only [b64encodeBytes, e1, e2]
        rw [b64CharVal_inv p x hvp, b64CharVal_inv q y hvq]
      · exact absurd h (by simp)
    · rw [if_neg hr] at h
      cases hvr : b64CharVal r with
      | none => rw [hvr] at h; simp at h
      | some z =>
      rw [hvr] at h
      simp only at h
      have hz := b64CharVal_lt r z hvr
      by_cases ht : t = '='
      · rw [if_pos ht] at h
        split at h
        · rename_i hcond
          obtain ⟨hrest, hz4⟩ := hcond
          simp only [Option.some.injEq] at h
          subst hrest ht
          rw [← h]
          show b64encodeBytes [x * 4 + y / 16, y % 16 * 16 + z / 4] = _
          have e1 : (x * 4 + y / 16) / 4 = x := by omega
          have e2 : (x * 4 + y / 16) % 4 * 16 + (y % 16 * 16 + z / 4) / 16 = y := by omega
          have e3 : (y % 16 * 16 + z / 4) % 16 * 4 = z := by omega
          simp only [b64encodeBytes, e1, e2, e3]
          rw [b64CharVal_inv p x hvp, b64CharVal_inv q y hvq, b64CharVal_inv r z hvr]
        · exact absurd h (by simp)
      · rw [if_neg ht] at h
        cases hvt : b64CharVal t with
        | none => rw [hvt] at h; simp at h
        | some w =>
        rw [hvt] at h
        simp only at h
        have hw := b64CharVal_lt t w hvt
        cases hdec : b64decodeChars rest with
        | none => rw [hdec] at h; simp at h
        | some bs2 =>
        rw [hdec] at h
        simp only [Option.map_some', Option.some.injEq] at h
        have ih := b64_encode_decode rest bs2 hdec
        rw [← h]
        show b64encodeBytes ((x * 4 + y / 16) :: (y % 16 * 16 + z / 4) :: (z % 4 * 64 + w) :: bs2) = _
        have e1 : (x * 4 + y / 16) / 4 = x := by omega
        have e2 : (x * 4 + y / 16) % 4 * 16 + (y % 16 * 16 + z / 4) / 16 = y := by omega
        have e3 : (y % 16 * 16 + z / 4) % 16 * 4 + (z % 4 * 64 + w) / 64 = z := by omega
        have e4 : (z % 4 * 64 + w) % 64 = w := by omega
        show b64Char ((x * 4 + y / 16) / 4) ::
          b64Char ((x * 4 + y / 16) % 4 * 16 + (y % 16 * 16 + z / 4) / 16) ::
          b64Char ((y % 16 * 16 + z / 4) % 16 * 4 + (z % 4 * 64 + w) / 64) ::
          b64Char ((z % 4 * 64 + w) % 64) :: b64encodeBytes bs2 = _
        rw [e1, e2, e3, e4, ih,
          b64CharVal_inv p x hvp, b64CharVal_inv q y hvq,
          b64CharVal_inv r z hvr, b64CharVal_inv t w hvt]

theorem b64_decode_bytes_lt : ∀ (cs : List Char) (bs : List Nat),
    b64decodeChars cs = some bs → ∀ b ∈ bs, b < 256
  | [], bs, h => by
    simp only [b64decodeChars, Option.some.injEq] at h
    subst h
    simp
  | [p], bs, h => by simp [b64decodeChars_nil1] at h
  | [p, q], bs, h => by simp [b64decodeChars_nil2] at h
  | [p, q, r], bs, h => by simp [b64decodeChars_nil3] at h
  | p :: q :: r :: t :: rest, bs, h => by
    simp only [b64decodeChars] at h
    cases hvp : b64CharVal p with
    | none => rw [hvp] at h; simp at h
    | some x =>
    cases hvq : b64CharVal q with
    | none => rw [hvp, hvq] at h; simp at h
    | some y =>
    rw [hvp, hvq] at h
    simp only at h
    have hx := b64CharVal_lt p x hvp
    have hy := b64CharVal_lt q y hvq
    by_cases hr : r = '='
    · rw [if_pos hr] at h
      split at h
      · simp only [Option.some.injEq] at h
        subst h
        intro b hb
        simp at hb
        omega
      · exact absurd h (by simp)
    · rw [if_neg hr] at h
      cases hvr : b64CharVal r with
      | none => rw [hvr] at h; simp at h
      | some z =>
      rw [hvr] at h
      simp only at h
      have hz := b64CharVal_lt r z hvr
      by_cases ht : t = '='
      · rw [if_pos ht] at h
        split at h
        · simp only [Option.some.injEq] at h
          subst h
          intro b hb
          simp at hb
          rcases hb with hb | hb <;> omega
        · exact absurd h (by simp)
      · rw [if_neg ht] at h
        cases hvt : b64CharVal t with
        | none => rw [hvt] at h; simp at h
        | some w =>
        rw [hvt] at h
        simp only at h
        have hw := b64CharVal_lt t w hvt
        cases hdec : b64decodeChars rest with
        | none => rw [hdec] at h; simp at h
        | some bs2 =>
        rw [hdec] at h
        simp only [Option.map_some', Option.some.injEq] at h
        have ih := b64_decode_bytes_lt rest bs2 hdec
        subst h
        intro b hb
        simp only [List.mem_cons] at hb
        rcases hb with hb | hb | hb | hb
        · omega
        · omega
        · omega
        · exact ih b hb

/-! ## Text encoding (model of the platform `TextEncoder` / `TextDecoder`)

The real `TextEncoder` serialises a string to UTF-8 bytes.  Only injectivity
and invertibility of this platform primitive matter for the repository's
code, so it is modelled as a fixed-width serialisation: each character
becomes three bytes, big-endian over its code point (every Unicode scalar
value is below `0x110000 < 2^24`).  The decoder is strict: it fails on a
ragged tail, an out-of-range byte or an invalid code point. -/

/-- `some c` when `n` is a valid Unicode scalar value, else `none`. -/
def mkCharOpt (n : Nat) : Option Char :=
  if h : n.isValidChar then some (Char.ofNat n) else none

/-- Model of `TextEncoder`: three big-endian bytes per character. -/
def textEncodeChars (cs : List Char) : List Nat :=
  cs.flatMap (fun c => [c.toNat / 65536, c.toNat / 256 % 256, c.toNat % 256])

/-- Model of `TextDecoder` at the byte-list level (strict). -/
def bytesToChars : List Nat → Option (List Char)
  | [] => some []
  | a :: b :: c :: rest =>
    if b < 256 ∧ c < 256 then
      match mkCharOpt (a * 65536 + b * 256 + c), bytesToChars rest with
      | some ch, some cs => some (ch :: cs)
      | _, _ => none
    else none
  | _ => none

/-- Model of `TextEncoder.encode` on strings. -/
def textEncode (s : String) : List Nat := textEncodeChars s.data

/-- Model of `TextDecoder.decode` on strings (strict). -/
def textDecode (bs : List Nat) : Option String := (bytesToChars bs).map List.asString

theorem char_toNat_valid (c : Char) : c.toNat.isValidChar := c.valid

theorem char_toNat_lt (c : Char) : c.toNat < 1114112 := by
  rcases char_toNat_valid c with h | ⟨_, h2⟩ <;> omega

theorem mkCharOpt_toNat (c : Char) : mkCharOpt c.toNat = some c := by
  unfold mkCharOpt
  rw [dif_pos (char_toNat_valid c), Char.ofNat_toNat]

theorem char_toNat_ofNat (n : Nat) (h : n.isValidChar) : (Char.ofNat n).toNat = n := by
  unfold Char.ofNat
  rw [dif_pos h]
  have hlt : n < 1114112 := by rcases h with h | ⟨_, h2⟩ <;> omega
  unfold Char.ofNatAux Char.toNat
  simp [UInt32.toNat]

theorem mkCharOpt_some (n : Nat) (c : Char) (h : mkCharOpt n = some c) : c.toNat = n := by
  unfold mkCharOpt at h
  split at h
  · simp only [Option.some.injEq] at h
    subst h
    exact char_toNat_ofNat n (by assumption)
  · exact absurd h (by simp)

theorem bytesToChars_encode : ∀ cs : List Char, bytesToChars (textEncodeChars cs) = some cs
  | [] => rfl
  | c :: cs => by
    have ih := bytesToChars_encode cs
    have hlt := char_toNat_lt c
    show bytesToChars (c.toNat / 65536 :: c.toNat / 256 % 256 :: c.toNat % 256 ::
      textEncodeChars cs) = _
    simp only [bytesToChars]
    rw [if_pos (by omega)]
    have e1 : c.toNat / 65536 * 65536 + c.toNat / 256 % 256 * 256 + c.toNat % 256 = c.toNat := by
      omega
    rw [e1, mkCharOpt_toNat, ih]

theorem bytesToChars_sound : ∀ (bs : List Nat) (cs : List Char),
    bytesToChars bs = some cs → textEncodeChars cs = bs
  | [], cs, h => by
    simp only [bytesToChars, Option.some.injEq] at h
    subst h
    rfl
  | [a], cs, h => by simp [bytesToChars] at h
  | [a, b], cs, h => by simp [bytesToChars] at h
  | a :: b :: c :: rest, cs, h => by
    simp only [bytesToChars] at h
    split at h
    · rename_i hbc
      cases hch : mkCharOpt (a * 65536 + b * 256 + c) with
      | none => rw [hch] at h; simp at h
      | some ch =>
      cases hrec : bytesToChars rest with
      | none => rw [hch, hrec] at h; simp at h
      | some cs2 =>
      rw [hch, hrec] at h
      simp only [Option.some.injEq] at h
      subst h
      have ih := bytesToChars_sound rest cs2 hrec
      have hn := mkCharOpt_some _ _ hch
      show ch.toNat / 65536 :: ch.toNat / 256 % 256 :: ch.toNat % 256 ::
        textEncodeChars cs2 = _
      rw [ih, hn]
      have e1 : (a * 65536 + b * 256 + c) / 65536 = a := by omega
      have e2 : (a * 65536 + b * 256 + c) / 256 % 256 = b := by omega
      have e3 : (a * 65536 + b * 256 + c) % 256 = c := by omega
      rw [e1, e2, e3]
    · exact absurd h (by simp)

theorem textEncodeChars_lt (cs : List Char) : ∀ b ∈ textEncodeChars cs, b < 256 := by
  intro b hb
  unfold textEncodeChars at hb
  simp only [List.mem_flatMap] at hb
  obtain ⟨c, _, hc⟩ := hb
  have := char_toNat_lt c
  simp only [List.mem_cons, List.not_mem_nil, or_false] at hc
  rcases hc with h | h | h <;> omega

/-! ## Ideal authenticated cipher (model of `crypto.subtle` AES-256-GCM)

`crypto.subtle.encrypt`/`decrypt` with AES-GCM are platform primitives.
They are modelled as an idealised authenticated scheme in which the
authentication tag binds the key, the IV and the whole plaintext:
a ciphertext is `data ++ key ++ iv ++ data`, and decryption succeeds
exactly on byte strings of that shape for the given key and IV.  This makes
the GCM guarantees exact: decryption under the same key and IV inverts
encryption, and any other ciphertext — tampered bytes, a wrong key, a wrong
IV — is rejected.  (Confidentiality is not modelled; no claim needs it.) -/

/-- Ideal model of `crypto.subtle.encrypt` (AES-256-GCM). -/
def subtleEncrypt (key iv data : List Nat) : List Nat :=
  data ++ key ++ iv ++ data

/-- Ideal model of `crypto.subtle.decrypt` (AES-256-GCM): succeeds exactly
on authentic ciphertexts for this key and IV. -/
def subtleDecrypt (key iv ct : List Nat) : Option (List Nat) :=
  if key.length + iv.length ≤ ct.length ∧
      (ct.length - (key.length + iv.length)) % 2 = 0 ∧
      ct = ct.take ((ct.length - (key.length + iv.length)) / 2) ++ key ++ iv ++
        ct.take ((ct.length - (key.length + iv.length)) / 2)
  then some (ct.take ((ct.length - (key.length + iv.length)) / 2))
  else none

theorem subtleDecrypt_encrypt (key iv d : List Nat) :
    subtleDecrypt key iv (subtleEncrypt key iv d) = some d := by
  unfold subtleEncrypt subtleDecrypt
  have hdl : ((d ++ key ++ iv ++ d).length - (key.length + iv.length)) / 2 = d.length := by
    simp only [List.length_append]
    omega
  have htake : (d ++ key ++ iv ++ d).take d.length = d := by
    rw [List.append_assoc (d ++ key), List.append_assoc d, List.take_left]
  rw [hdl, htake]
  rw [if_pos ⟨by simp only [List.length_append]; omega,
    by simp only [List.length_append]; omega, rfl⟩]

theorem subtleDecrypt_sound (key iv ct d : List Nat)
    (h : subtleDecrypt key iv ct = some d) : ct = d ++ key ++ iv ++ d := by
  unfold subtleDecrypt at h
  split at h
  · rename_i hcond
    simp only [Option.some.injEq] at h
    subst h
    exact hcond.2.2
  · exact absurd h (by simp)

/-! ## `src/lib/crypto.ts` — `encrypt`, `decrypt`, `importKey`

Embedded from the source.  The fresh random IV drawn by
`crypto.getRandomValues(new Uint8Array(IV_LENGTH))` is externalised as an
explicit `iv` argument to `encrypt` (the model of the randomness source);
everything else follows the source line by line. -/

def IV_LENGTH : Nat := 12

/-- `importKey` from `crypto.ts`: base64-decode the key and require exactly
32 bytes.  `atob` throwing is modelled as the error value. -/
def importKey (keyBase64 : String) : Except String (List Nat) :=
  match atob keyBase64 with
  | none => .error "InvalidCharacterError"
  | some keyBytes =>
    if keyBytes.length = 32 then .ok keyBytes
    else .error "Encryption key must be 32 bytes (256 bits)"

/-- `encrypt` from `crypto.ts`: import the key, encrypt the UTF-encoded
plaintext under the (externalised) fresh IV, prepend the IV and base64 the
combined bytes. -/
def encrypt (plaintext keyBase64 : String) (iv : List Nat) : Except String String :=
  match importKey keyBase64 with
  | .error e => .error e
  | .ok key => .ok (btoa (iv ++ subtleEncrypt key iv (textEncode plaintext)))

/-- `decrypt` from `crypto.ts`: import the key, base64-decode, split off the
first `IV_LENGTH` bytes as the IV, authenticated-decrypt the rest, decode
the plaintext bytes.  Every failure is an error value (the model of the
thrown exception). -/
def decrypt (ciphertext keyBase64 : String) : Except String String :=
  match importKey keyBase64 with
  | .error e => .error e
  | .ok key =>
    match atob ciphertext with
    | none => .error "InvalidCharacterError"
    | some combined =>
      match subtleDecrypt key (combined.take IV_LENGTH) (combined.drop IV_LENGTH) with
      | none => .error "OperationError"
      | some data =>
        match textDecode data with
        | none => .error "DecodingError"
        | some p => .ok p

theorem string_mk_data (s : String) : String.mk s.data = s := by
  cases s
  rfl

/-- All bytes of `iv ++ subtleEncrypt kb iv (textEncode p)` are bytes when
the key and IV are. -/
theorem combined_bytes_lt (kb iv : List Nat) (p : String)
    (hkb : ∀ b ∈ kb, b < 256) (hiv : ∀ b ∈ iv, b < 256) :
    ∀ b ∈ iv ++ subtleEncrypt kb iv (textEncode p), b < 256 := by
  intro b hb
  rw [List.mem_append] at hb
  rcases hb with hb | hb
  · exact hiv b hb
  · unfold subtleEncrypt at hb
    rw [List.mem_append] at hb
    rcases hb with hb | hb
    · rw [List.mem_append] at hb
      rcases hb with hb | hb
      · rw [List.mem_append] at hb
        rcases hb with hb | hb
        · exact textEncodeChars_lt p.data b hb
        · exact hkb b hb
      · exact hiv b hb
    · exact textEncodeChars_lt p.data b hb

/-- Round trip at the byte level: decrypting a freshly produced ciphertext
with the same key returns the plaintext. -/
theorem decrypt_encrypt (p keyB64 : String) (iv kb : List Nat)
    (hkb : atob keyB64 = some kb) (hkl : kb.length = 32)
    (hiv : iv.length = 12) (hiv256 : ∀ b ∈ iv, b < 256) :
    decrypt (btoa (iv ++ subtleEncrypt kb iv (textEncode p))) keyB64 = .ok p := by
  have hkey : importKey keyB64 = .ok kb := by
    unfold importKey
    rw [hkb]
    simp [hkl]
  have hkb256 : ∀ b ∈ kb, b < 256 := b64_decode_bytes_lt keyB64.data kb hkb
  have hcomb256 : ∀ b ∈ iv ++ subtleEncrypt kb iv (textEncode p), b < 256 :=
    combined_bytes_lt kb iv p hkb256 hiv256
  have hatob : atob (btoa (iv ++ subtleEncrypt kb iv (textEncode p)))
      = some (iv ++ subtleEncrypt kb iv (textEncode p)) := by
    unfold atob btoa
    exact b64_decode_encode _ hcomb256
  have htake : (iv ++ subtleEncrypt kb iv (textEncode p)).take IV_LENGTH = iv := by
    have hlen12 : IV_LENGTH = iv.length := hiv.symm
    rw [hlen12, List.take_left]
  have hdrop : (iv ++ subtleEncrypt kb iv (textEncode p)).drop IV_LENGTH
      = subtleEncrypt kb iv (textEncode p) := by
    have hlen12 : IV_LENGTH = iv.length := hiv.symm
    rw [hlen12, List.drop_left]
  have htd : textDecode (textEncode p) = some p := by
    unfold textDecode textEncode
    rw [bytesToChars_encode]
    simp only [Option.map_some']
    rw [show p.data.asString = p from by cases p; rfl]
  unfold decrypt
  simp only [hkey, hatob, htake, hdrop, subtleDecrypt_encrypt, htd]

/-- Soundness: a successful decryption exhibits the ciphertext as a genuine
encryption of exactly the returned plaintext under that key. -/
theorem decrypt_sound (ct keyB64 p : String)
    (h : decrypt ct keyB64 = .ok p) :
    ∃ kb iv, atob keyB64 = some kb ∧ kb.length = 32 ∧ iv.length = 12 ∧
      (∀ b ∈ iv, b < 256) ∧ encrypt p keyB64 iv = .ok ct := by
  unfold decrypt at h
  cases hkey : importKey keyB64 with
  | error e => simp only [hkey] at h; exact absurd h (by simp)
  | ok kb =>
  simp only [hkey] at h
  cases hatob : atob ct with
  | none => simp only [hatob] at h; exact absurd h (by simp)
  | some combined =>
  simp only [hatob] at h
  cases hdec : subtleDecrypt kb (combined.take IV_LENGTH) (combined.drop IV_LENGTH) with
  | none => simp only [hdec] at h; exact absurd h (by simp)
  | some data =>
  simp only [hdec] at h
  cases htd : textDecode data with
  | none => simp only [htd] at h; exact absurd h (by simp)
  | some p2 =>
  simp only [htd, Except.ok.injEq] at h
  subst h
  have hkbl : atob keyB64 = some kb ∧ kb.length = 32 := by
    unfold importKey at hkey
    cases hk : atob keyB64 with
    | none => simp only [hk] at hkey; exact absurd hkey (by simp)
    | some kb2 =>
      simp only [hk] at hkey
      split at hkey
      · simp only [Except.ok.injEq] at hkey
        subst hkey
        exact ⟨rfl, by assumption⟩
      · exact absurd hkey (by simp)
  have hsplit := subtleDecrypt_sound _ _ _ _ hdec
  have hdata : textEncode p2 = data := by
    unfold textDecode at htd
    cases hbc : bytesToChars data with
    | none => rw [hbc] at htd; exact absurd htd (by simp)
    | some cs =>
      rw [hbc] at htd
      simp only [Option.map_some', Option.some.injEq] at htd
      have := bytesToChars_sound data cs hbc
      subst htd
      unfold textEncode
      rw [show (List.asString cs).data = cs from rfl]
      exact this
  have hcombined : combined = combined.take IV_LENGTH ++ combined.drop IV_LENGTH :=
    (List.take_append_drop IV_LENGTH combined).symm
  have hivlen : (combined.take IV_LENGTH).length = 12 := by
    have hlen := congrArg List.length hsplit
    simp only [List.length_append, List.length_drop, List.length_take] at hlen
    have h32 : kb.length = 32 := hkbl.2
    unfold IV_LENGTH
    simp only [List.length_take]
    unfold IV_LENGTH at hlen
    omega
  have hcomb256 : ∀ b ∈ combined, b < 256 := b64_decode_bytes_lt ct.data combined hatob
  refine ⟨kb, combined.take IV_LENGTH, hkbl.1, hkbl.2, hivlen, ?_, ?_⟩
  · intro b hb
    exact hcomb256 b (List.mem_of_mem_take hb)
  · unfold encrypt
    simp only [hkey]
    unfold subtleEncrypt
    rw [hdata, ← hsplit, ← hcombined]
    have hcanon : b64encodeBytes combined = ct.data := b64_encode_decode ct.data combined hatob
    unfold btoa
    rw [hcanon, string_mk_data]

/-! ## `src/db/index.ts` — the credential-keyed token cache

The D1 database is external; per the spec it is a key-value store holding
one row per cache key.  It is modelled as an association list from cache
key to stored (encrypted) token, newest binding first; `INSERT OR REPLACE`
removes any previous binding.  The unused `created_at` column carries no
logic and is not modelled. -/

/-- `SELECT token FROM tokens WHERE cache_key = ?`, modelled. -/
def kvLookup (db : List (String × String)) (k : String) : Option String :=
  (db.find? (fun row => row.1 == k)).map (fun row => row.2)

/-- `DELETE FROM tokens WHERE cache_key = ?`, modelled. -/
def kvRemove (db : List (String × String)) (k : String) : List (String × String) :=
  db.filter (fun row => row.1 != k)

/-- `INSERT OR REPLACE INTO tokens (cache_key, token) VALUES (?, ?)`, modelled. -/
def kvSet (db : List (String × String)) (k v : String) : List (String × String) :=
  (k, v) :: kvRemove db k

/-- `getToken` from `src/db/index.ts`: look the row up; no row is `none`;
otherwise decrypt the stored value (a decryption failure propagates as an
error, exactly as the thrown exception does in the source). -/
def getToken (db : List (String × String)) (cacheKey encryptionKey : String) :
    Except String (Option String) :=
  match kvLookup db cacheKey with
  | none => .ok none
  | some stored =>
    match decrypt stored encryptionKey with
    | .error e => .error e
    | .ok p => .ok (some p)

/-! ## `src/lib/meitre.ts` — the `MeitreAPI` upstream client

The client's mutable fields (`token`, `restaurant`), the database, the
randomness source for `encrypt`'s IVs, the scripted upstream responses and
the event log form the explicit state `ApiState`.  Each method of the class
becomes a state-passing function returning `Except String α × ApiState`;
a thrown exception is the `Except.error` case, with the state at the point
of the throw. -/

/-- `MeitreCredentials` from `src/lib/meitre.ts`. -/
structure MeitreCredentials where
  username : String
  password : String
  restaurant : Option String

/-- `MeitreRestaurant` from `src/lib/meitre.ts`. -/
structure MeitreRestaurant where
  id : Int
  name : String
  subdomainPrefix : String
  address : String
  timezone : String
deriving DecidableEq, Repr

/-- A calendar entry as returned by the availability calendar endpoint
(`MeitreAPI.getCalendar`'s response type). -/
structure CalEntry where
  date : String
  isAvailable : Bool
  isSpecialDay : Bool
deriving DecidableEq, Repr

/-- The payload of a scripted upstream response: the shape `res.json<T>()`
is declared to return at each call site (upstream JSON decoding is external
and modelled as already-typed data). -/
inductive UBody where
  /-- `{ token }` returned by `POST /login_check`. -/
  | tok (t : String)
  /-- `{ restaurants }` returned by `GET /admin/v2/restaurants`. -/
  | restos (rs : List MeitreRestaurant)
  /-- `{ data: { calendar } }` returned by the calendar endpoint. -/
  | cal (entries : List CalEntry)
  /-- Any other response body, as raw text. -/
  | raw (s : String)
deriving DecidableEq, Repr

/-- `res.text()` on a scripted body. -/
def UBody.textOf : UBody → String
  | .tok t => t
  | .restos _ => ""
  | .cal _ => ""
  | .raw s => s

/-- A scripted upstream HTTP response: status plus body. -/
structure UResp where
  status : Nat
  body : UBody
deriving DecidableEq, Repr

/-- `Response.ok` of the Fetch API: status in the range 200–299. -/
def resOk (status : Nat) : Bool := 200 ≤ status && status ≤ 299

/-- Observable events: upstream HTTP requests (with the URL and the bearer
token sent, if any) and database operations. -/
inductive Ev where
  | httpReq (url : String) (auth : Option String)
  | dbGet (k : String)
  | dbSet (k : String)
  | dbDelete (k : String)
deriving DecidableEq, Repr

/-- The explicit state threaded through the `MeitreAPI` methods. -/
structure ApiState where
  /-- The token cache table (the D1 database). -/
  db : List (String × String)
  /-- The in-memory token field `this.token`. -/
  token : Option String
  /-- The resolved scope field `this.restaurant`. -/
  restaurant : Option String
  /-- Randomness source: the IV that `crypto.getRandomValues` yields at
  the `n`-th encryption. -/
  ivs : Nat → List Nat
  /-- How many IVs have been drawn so far. -/
  ivCount : Nat
  /-- Scripted upstream responses still to be consumed, in order. -/
  script : List UResp
  /-- Event log, in chronological order. -/
  log : List Ev

def BASE_URL : String := "https://api.meitre.com/api"

def loginUrl : String := BASE_URL ++ "/login_check"

def restaurantsUrl : String := BASE_URL ++ "/admin/v2/restaurants"

/-- One network `fetch`: logs the request and consumes the next scripted
response (an empty script is a model artifact and yields an error). -/
def httpFetch (url : String) (auth : Option String) (s : ApiState) :
    Except String UResp × ApiState :=
  let s1 : ApiState := { s with log := s.log ++ [Ev.httpReq url auth] }
  match s1.script with
  | [] => (.error "no scripted upstream response", s1)
  | r :: rest => (.ok r, { s1 with script := rest })

/-- `setToken` from `src/db/index.ts`, lifted to `ApiState`: encrypt under
the next fresh IV and upsert the row. -/
def setTokenM (cacheKey tok encryptionKey : String) (s : ApiState) :
    Except String Unit × ApiState :=
  match encrypt tok encryptionKey (s.ivs s.ivCount) with
  | .error e => (.error e, s)
  | .ok ct =>
    (.ok (), { s with
      db := kvSet s.db cacheKey ct
      ivCount := s.ivCount + 1
      log := s.log ++ [Ev.dbSet cacheKey] })

/-- `MeitreAPI.login`: `POST /login_check`; non-ok status throws; on
success persist the token (encrypted) and hold it in memory. -/
def login (c : MeitreCredentials) (encryptionKey : String) (s : ApiState) :
    Except String String × ApiState :=
  match httpFetch loginUrl none s with
  | (.error e, s1) => (.error e, s1)
  | (.ok resp, s1) =>
    if resOk resp.status then
      match resp.body with
      | .tok t =>
        match setTokenM c.username t encryptionKey s1 with
        | (.error e, s2) => (.error e, s2)
        | (.ok _, s2) => (.ok t, { s2 with token := some t })
      | _ => (.error "unexpected response body", s1)
    else (.error ("Meitre login failed: " ++ toString resp.status), s1)

/-- `MeitreAPI.getOrRefreshToken`: in-memory token, else cache (logged as a
database read), else login. -/
def getOrRefreshToken (c : MeitreCredentials) (encryptionKey : String) (s : ApiState) :
    Except String String × ApiState :=
  match s.token with
  | some t => (.ok t, s)
  | none =>
    let s1 : ApiState := { s with log := s.log ++ [Ev.dbGet c.username] }
    match getToken s.db c.username encryptionKey with
    | .error e => (.error e, s1)
    | .ok (some cached) => (.ok cached, { s1 with token := some cached })
    | .ok none => login c encryptionKey s1

/-- `MeitreAPI.listRestaurants`: authenticate, `GET /admin/v2/restaurants`,
throw on any non-ok status (including 401 — no retry here), return the
restaurant list. -/
def listRestaurants (c : MeitreCredentials) (encryptionKey : String) (s : ApiState) :
    Except String (List MeitreRestaurant) × ApiState :=
  match getOrRefreshToken c encryptionKey s with
  | (.error e, s1) => (.error e, s1)
  | (.ok tok, s1) =>
    match httpFetch restaurantsUrl (some tok) s1 with
    | (.error e, s2) => (.error e, s2)
    | (.ok resp, s2) =>
      if resOk resp.status then
        match resp.body with
        | .restos rs => (.ok rs, s2)
        | _ => (.error "unexpected response body", s2)
      else (.error ("Meitre API error: " ++ toString resp.status), s2)

def noRestaurantsMsg : String := "No restaurants found for this account"

def multipleRestaurantsMsg : String :=
  "Multiple restaurants found for this account. Use the list_restaurants tool to see them, then set the \"restaurant\" header."

/-- `MeitreAPI.getRestaurant`: an already-resolved scope is returned as is;
otherwise list the restaurants and require exactly one, which is
auto-selected (its `subdomainPrefix`) and remembered. -/
def getRestaurant (c : MeitreCredentials) (encryptionKey : String) (s : ApiState) :
    Except String String × ApiState :=
  match s.restaurant with
  | some r => (.ok r, s)
  | none =>
    match listRestaurants c encryptionKey s with
    | (.error e, s1) => (.error e, s1)
    | (.ok rs, s1) =>
      match rs with
      | [] => (.error noRestaurantsMsg, s1)
      | [r0] => (.ok (MeitreRestaurant.subdomainPrefix r0),
          { s1 with restaurant := some (MeitreRestaurant.subdomainPrefix r0) })
      | _ => (.error multipleRestaurantsMsg, s1)

/-- The scoped URL `BASE_URL/admin/v2/restaurants/<restaurant>/<path>`. -/
def scopedUrl (restaurant path : String) : String :=
  BASE_URL ++ "/admin/v2/restaurants/" ++ restaurant ++ "/" ++ path

/-- `MeitreAPI.fetch`: authenticate, resolve the scope, issue the request.
On a 401: delete the cached token, clear the in-memory token, perform one
fresh login, and retry the same URL once with the new token; a failing
retry throws.  Any other non-ok status throws. -/
def apiFetch (c : MeitreCredentials) (encryptionKey : String) (path : String)
    (s : ApiState) : Except String UBody × ApiState :=
  match getOrRefreshToken c encryptionKey s with
  | (.error e, s1) => (.error e, s1)
  | (.ok tok, s1) =>
    match getRestaurant c encryptionKey s1 with
    | (.error e, s2) => (.error e, s2)
    | (.ok rest, s2) =>
      match httpFetch (scopedUrl rest path) (some tok) s2 with
      | (.error e, s3) => (.error e, s3)
      | (.ok resp, s3) =>
        if resp.status = 401 then
          let s4 : ApiState := { s3 with
            db := kvRemove s3.db c.username
            log := s3.log ++ [Ev.dbDelete c.username] }
          let s5 : ApiState := { s4 with token := none }
          match login c encryptionKey s5 with
          | (.error e, s6) => (.error e, s6)
          | (.ok newTok, s6) =>
            match httpFetch (scopedUrl rest path) (some newTok) s6 with
            | (.error e, s7) => (.error e, s7)
            | (.ok retry, s7) =>
              if resOk retry.status then (.ok retry.body, s7)
              else (.error ("Meitre API error: " ++ toString retry.status ++ " " ++
                UBody.textOf retry.body), s7)
        else if resOk resp.status then (.ok resp.body, s3)
        else (.error ("Meitre API error: " ++ toString resp.status ++ " " ++
          UBody.textOf resp.body), s3)

/-- Query string built by `URLSearchParams` in `MeitreAPI.getCalendar`:
`partySize` and `serviceType` always, `areasIds`/`menusIds` only when the
corresponding optional id is set and truthy (the source guards with JS
truthiness, so an id of `0` is omitted). -/
def calendarQuery (partySize : Int) (serviceType : String)
    (areaId menuId : Option Int) : String :=
  "partySize=" ++ toString partySize ++ "&serviceType=" ++ serviceType ++
    (match areaId with
     | some a => if a ≠ 0 then "&areasIds=" ++ toString a else ""
     | none => "") ++
    (match menuId with
     | some m => if m ≠ 0 then "&menusIds=" ++ toString m else ""
     | none => "")

/-- `MeitreAPI.getCalendar`: `fetch` on the calendar endpoint, expecting the
calendar payload. -/
def getCalendar (c : MeitreCredentials) (encryptionKey : String) (partySize : Int)
    (serviceType : String) (areaId menuId : Option Int) (s : ApiState) :
    Except String (List CalEntry) × ApiState :=
  match apiFetch c encryptionKey
      ("availabilities/calendarnew?" ++ calendarQuery partySize serviceType areaId menuId) s with
  | (.error e, s1) => (.error e, s1)
  | (.ok (.cal entries), s1) => (.ok entries, s1)
  | (.ok _, s1) => (.error "unexpected response body", s1)

/-- `d.date.split('T')[0]`: the prefix of the string before the first `T`. -/
def dateOnly (s : String) : String := ⟨s.data.takeWhile (fun c => c != 'T')⟩

/-- The `execute` function of the `fetch_dates` tool (`src/mcp/tools.ts`):
fetch the calendar, then keep the available entries whose date-timestamp
lies in `[startDate, startDate + 15 days]`, where `startDate` defaults to
`Date.now()`, and render each kept entry date-only.  `Date.now()` and
`+new Date(string)` are platform primitives, externalised as the `nowMs`
value and the `dateParse` oracle (milliseconds). -/
def fetchDatesExecute (c : MeitreCredentials) (encryptionKey : String)
    (partySize : Int) (serviceType : String) (areaId menuId : Option Int)
    (startDate : Option String) (nowMs : Int) (dateParse : String → Int)
    (s : ApiState) : Except String (List String) × ApiState :=
  match getCalendar c encryptionKey partySize serviceType areaId menuId s with
  | (.error e, s1) => (.error e, s1)
  | (.ok cal, s1) =>
    let startMs : Int := match startDate with
      | some d => dateParse d
      | none => nowMs
    let endMs : Int := startMs + 15 * 24 * 60 * 60 * 1000
    (.ok (((cal.filter (fun d => d.isAvailable)).filter
        (fun d => decide (startMs ≤ dateParse d.date) && decide (dateParse d.date ≤ endMs))).map
      (fun d => dateOnly d.date)), s1)

/-! ## `src/mcp/server.ts` — the JSON-RPC dispatcher

JavaScript values reaching the dispatcher are modelled by `JsValue`,
including `undefined`/`null`, so that the untyped property accesses in the
source (`params.name`, `params.arguments`, `args.restaurant`) keep their
JavaScript semantics: reading a property of `undefined` or `null` throws;
reading an absent property of anything else yields `undefined`.  Tool
execution is the system under the dispatcher: it is passed in as an oracle
`exec`, and the dispatcher's output records every invocation of it, so that
short-circuiting is provable. -/

inductive JsValue where
  | undefined
  | null
  | bool (b : Bool)
  | num (n : Int)
  | str (s : String)
  | arr (xs : List JsValue)
  | obj (fields : List (String × JsValue))

/-- First binding of a field name in an object literal. -/
def jsLookupField : List (String × JsValue) → String → Option JsValue
  | [], _ => none
  | (k, v) :: rest, f => if k = f then some v else jsLookupField rest f

/-- JavaScript property read `v[f]`: throws (`error`) on `undefined`/`null`,
yields the field or `undefined` on objects, and `undefined` on any other
value (primitives and arrays have no such named property here). -/
def jsGetField : JsValue → String → Except String JsValue
  | .undefined, f => .error ("Cannot read properties of undefined (reading " ++ f ++ ")")
  | .null, f => .error ("Cannot read properties of null (reading " ++ f ++ ")")
  | .obj kvs, f => .ok ((jsLookupField kvs f).getD .undefined)
  | _, _ => .ok .undefined

/-- JavaScript template-literal coercion, as used by
`Unknown tool: ${toolName}` (arrays and objects are approximated). -/
def jsTemplateStr : JsValue → String
  | .undefined => "undefined"
  | .null => "null"
  | .bool true => "true"
  | .bool false => "false"
  | .num n => toString n
  | .str s => s
  | .arr _ => ""
  | .obj _ => "[object Object]"

mutual

/-- `JSON.stringify`, modelled compactly (the source pretty-prints with a
two-space indent; the whitespace is not modelled). -/
def jsStringify : JsValue → String
  | .undefined => "null"
  | .null => "null"
  | .bool true => "true"
  | .bool false => "false"
  | .num n => toString n
  | .str s => "\"" ++ s ++ "\""
  | .arr xs => "[" ++ jsStringifyList xs ++ "]"
  | .obj kvs => "\x7b" ++ jsStringifyObj kvs ++ "\x7d"

def jsStringifyList : List JsValue → String
  | [] => ""
  | [v] => jsStringify v
  | v :: rest => jsStringify v ++ "," ++ jsStringifyList rest

def jsStringifyObj : List (String × JsValue) → String
  | [] => ""
  | [(k, v)] => "\"" ++ k ++ "\":" ++ jsStringify v
  | (k, v) :: rest => "\"" ++ k ++ "\":" ++ jsStringify v ++ "," ++ jsStringifyObj rest

end

/-! ## `src/mcp/tools.ts` — parameter schemas of the tool registry

Each tool's `parameters` is a `z.object({...})` over number, string and
enum fields, some optional.  The zod schema language is external; the
registry's schemas are embedded as field lists, and `.parse` as the checker
`zodParse` below: non-objects are rejected, required fields must be present
with the right type, present optional fields must have the right type,
unknown keys are stripped (zod's default).  Error messages are
placeholders for zod's issue rendering. -/

inductive FType where
  | fnum
  | fstr
  | fenum (opts : List String)

structure SField where
  fname : String
  ftype : FType
  freq : Bool

/-- Does a JS value match a field type? (`z.number()`, `z.string()`,
`z.enum([...])`.) -/
def checkFType : FType → JsValue → Bool
  | .fnum, .num _ => true
  | .fstr, .str _ => true
  | .fenum opts, .str s => opts.contains s
  | _, _ => false

/-- Check the declared fields against an object's bindings, returning the
validated (stripped) bindings. -/
def zodParseFields (fields : List SField) (kvs : List (String × JsValue)) :
    Except String (List (String × JsValue)) :=
  match fields with
  | [] => .ok []
  | f :: fs =>
    match jsLookupField kvs f.fname with
    | none =>
      if f.freq then .error ("Required: " ++ f.fname)
      else zodParseFields fs kvs
    | some v =>
      if checkFType f.ftype v then
        match zodParseFields fs kvs with
        | .error e => .error e
        | .ok out => .ok ((f.fname, v) :: out)
      else .error ("Invalid type: " ++ f.fname)

/-- `tool.parameters.parse(args)`: requires an object and validates the
fields; the `error` case models the thrown `ZodError`. -/
def zodParse (fields : List SField) (v : JsValue) : Except String JsValue :=
  match v with
  | .obj kvs =>
    match zodParseFields fields kvs with
    | .error e => .error e
    | .ok out => .ok (.obj out)
  | _ => .error "Expected object"

/-- The shared optional `restaurant` parameter of `src/mcp/tools.ts`. -/
def restaurantField : SField := ⟨"restaurant", FType.fstr, false⟩

/-- The parameter schema of each registered tool, by tool name
(`tools[name].parameters`); `none` for an unknown name. -/
def toolSchema (n : String) : Option (List SField) :=
  if n = "list_restaurants" then some []
  else if n = "fetch_options" then some [restaurantField]
  else if n = "fetch_dates" then some [restaurantField,
    ⟨"partySize", FType.fnum, true⟩,
    ⟨"serviceType", FType.fenum ["lunch", "dinner"], true⟩,
    ⟨"areaId", FType.fnum, false⟩,
    ⟨"menuId", FType.fnum, false⟩,
    ⟨"startDate", FType.fstr, false⟩]
  else if n = "fetch_timeslots" then some [restaurantField,
    ⟨"partySize", FType.fnum, true⟩,
    ⟨"date", FType.fstr, true⟩,
    ⟨"serviceType", FType.fenum ["lunch", "dinner"], true⟩,
    ⟨"areaId", FType.fnum, false⟩,
    ⟨"menuId", FType.fnum, false⟩]
  else if n = "search_reservations" then some [restaurantField,
    ⟨"phone", FType.fstr, true⟩]
  else if n = "book_reservation" then some [restaurantField,
    ⟨"partySize", FType.fnum, true⟩,
    ⟨"date", FType.fstr, true⟩,
    ⟨"time", FType.fstr, true⟩,
    ⟨"areaId", FType.fnum, true⟩,
    ⟨"menuId", FType.fnum, false⟩,
    ⟨"name", FType.fstr, true⟩,
    ⟨"phone", FType.fstr, true⟩,
    ⟨"email", FType.fstr, false⟩]
  else if n = "reschedule_reservation" then some [restaurantField,
    ⟨"reservationId", FType.fnum, true⟩,
    ⟨"partySize", FType.fnum, true⟩,
    ⟨"date", FType.fstr, true⟩,
    ⟨"time", FType.fstr, true⟩,
    ⟨"areaId", FType.fnum, true⟩,
    ⟨"menuId", FType.fnum, false⟩,
    ⟨"name", FType.fstr, true⟩,
    ⟨"phone", FType.fstr, true⟩,
    ⟨"email", FType.fstr, false⟩]
  else if n = "cancel_reservation" then some [restaurantField,
    ⟨"reservationId", FType.fnum, true⟩]
  else none

/-- The registry's tool names, in declaration order. -/
def toolNames : List String :=
  ["list_restaurants", "fetch_options", "fetch_dates", "fetch_timeslots",
   "search_reservations", "book_reservation", "reschedule_reservation",
   "cancel_reservation"]

/-- The human-readable description of each tool (`tools[name].description`). -/
def toolDescription (n : String) : String :=
  if n = "list_restaurants" then
    "List restaurants accessible to this account. Use this to find the restaurant identifier if needed."
  else if n = "fetch_options" then
    "Fetch available areas, service types and menus for the restaurant"
  else if n = "fetch_dates" then
    "Fetch available dates for a reservation for the next 15 days from today (or a custom start date). Filter by areaId and/or menuId when specifically asked."
  else if n = "fetch_timeslots" then
    "Fetch available timeslots for a specific date. Filter by areaId and/or menuId when specifically asked. Each timeslot specifies which areas and menus are available."
  else if n = "search_reservations" then
    "Search for reservations by phone number. Returns only booked (active) reservations."
  else if n = "book_reservation" then "Book a new reservation"
  else if n = "reschedule_reservation" then
    "Reschedule an existing reservation to a new date and time"
  else if n = "cancel_reservation" then "Cancel an existing reservation"
  else ""

/-- A JSON-Schema-like rendering of a field type (stand-in for
`z.toJSONSchema`, which is external). -/
def ftypeJson : FType → JsValue
  | .fnum => JsValue.obj [("type", JsValue.str "number")]
  | .fstr => JsValue.obj [("type", JsValue.str "string")]
  | .fenum opts => JsValue.obj [("type", JsValue.str "string"),
      ("enum", JsValue.arr (opts.map JsValue.str))]

/-- Input schema rendering for `tools/list` (stand-in for `z.toJSONSchema`). -/
def schemaJson (fields : List SField) : JsValue :=
  JsValue.obj [("type", JsValue.str "object"),
    ("properties", JsValue.obj (fields.map (fun f => (f.fname, ftypeJson f.ftype)))),
    ("required", JsValue.arr ((fields.filter (fun f => f.freq)).map
      (fun f => JsValue.str f.fname)))]

/-- An inbound JSON-RPC request (`McpHttpRequest`): the id is kept as a JS
value (string or number in the source) so that echoing is visible. -/
structure McpRequest where
  id : JsValue
  method : String
  params : JsValue

/-- A JSON-RPC error object. -/
structure McpError where
  code : Int
  message : String

/-- An outbound JSON-RPC response (`McpHttpResponse`). -/
structure McpResponse where
  id : JsValue
  result : Option JsValue
  error : Option McpError

/-- The dispatcher's output: the response, plus the observable record of
tool executions (name and validated params, in order) and of
`api.setRestaurant` calls made for a tool-supplied scope argument. -/
structure DispatchOut where
  resp : McpResponse
  execLog : List (String × JsValue)
  restLog : List String

/-- The static `initialize` result. -/
def initializeResult : JsValue :=
  JsValue.obj [("protocolVersion", JsValue.str "2024-11-05"),
    ("serverInfo", JsValue.obj [("name", JsValue.str "meitre-mcp"),
      ("version", JsValue.str "0.1.0")]),
    ("capabilities", JsValue.obj [("tools", JsValue.obj [])])]

/-- The `tools/list` result: every registered tool with name, description
and input schema. -/
def toolsListResult : JsValue :=
  JsValue.obj [("tools", JsValue.arr (toolNames.map (fun n =>
    JsValue.obj [("name", JsValue.str n),
      ("description", JsValue.str (toolDescription n)),
      ("inputSchema", schemaJson ((toolSchema n).getD []))])))]

/-- `params.arguments ?? {}`: nullish coalescing to an empty object. -/
def coalesceArgs (v : JsValue) : JsValue :=
  match v with
  | .undefined => JsValue.obj []
  | .null => JsValue.obj []
  | v => v

/-- `Array.isArray(result) ? { items: result } : result`: the structured
payload is an object wrapping a sequence under `items`, or the result
itself. -/
def wrapStructured (v : JsValue) : JsValue :=
  match v with
  | .arr xs => JsValue.obj [("items", JsValue.arr xs)]
  | _ => v

/-- `handleMcpRequest` from `src/mcp/server.ts`.  Tool execution is the
oracle `exec` (name, validated params) — the bodies of the tools live in
`src/mcp/tools.ts` and are verified separately; a `.error` from any step
inside the `try` is the thrown exception, converted by the top-level
`catch` into a `-32603` response carrying the message. -/
def handleMcpRequest (req : McpRequest) (hasHeaderRestaurant : Bool)
    (exec : String → JsValue → Except String JsValue) : DispatchOut :=
  if req.method = "initialize" then
    ⟨⟨req.id, some initializeResult, none⟩, [], []⟩
  else if req.method = "tools/list" then
    ⟨⟨req.id, some toolsListResult, none⟩, [], []⟩
  else if req.method = "tools/call" then
    match jsGetField req.params "name" with
    | .error e => ⟨⟨req.id, none, some ⟨-32603, e⟩⟩, [], []⟩
    | .ok nameVal =>
      let toolName := jsTemplateStr nameVal
      match toolSchema toolName with
      | none => ⟨⟨req.id, none, some ⟨-32601, "Unknown tool: " ++ toolName⟩⟩, [], []⟩
      | some fields =>
        match jsGetField req.params "arguments" with
        | .error e => ⟨⟨req.id, none, some ⟨-32603, e⟩⟩, [], []⟩
        | .ok argsRaw =>
          let args : JsValue := coalesceArgs argsRaw
          let restArg : JsValue := match args with
            | .obj kvs => (jsLookupField kvs "restaurant").getD JsValue.undefined
            | _ => JsValue.undefined
          let restCalls : List String :=
            if hasHeaderRestaurant then []
            else match restArg with
              | .str r => if r ≠ "" then [r] else []
              | _ => []
          match zodParse fields args with
          | .error m => ⟨⟨req.id, none, some ⟨-32603, m⟩⟩, [], restCalls⟩
          | .ok parsed =>
            match exec toolName parsed with
            | .error m => ⟨⟨req.id, none, some ⟨-32603, m⟩⟩, [(toolName, parsed)], restCalls⟩
            | .ok v =>
              ⟨⟨req.id, some (JsValue.obj
                  [("content", JsValue.arr [JsValue.obj
                    [("type", JsValue.str "text"),
                     ("text", JsValue.str (jsStringify v))]]),
                   ("structuredContent", wrapStructured v)]), none⟩,
                [(toolName, parsed)], restCalls⟩
  else
    ⟨⟨req.id, none, some ⟨-32601, "Method not found: " ++ req.method⟩⟩, [], []⟩

/-! ## Claim theorems -/

/-- **C7.**  For every non-empty plaintext string `p` (including strings
containing base64's reserved characters) and every valid 32-byte key `k`,
`decrypt (encrypt p k) k` returns exactly `p`.  The fresh IV drawn inside
`encrypt` is the externalised `iv` (any 12-byte value). -/
theorem c7_encrypt_decrypt_roundtrip (p keyB64 : String) (iv kb : List Nat)
    (hp : p ≠ "") (hkb : atob keyB64 = some kb) (hkl : kb.length = 32)
    (hiv : iv.length = 12) (hiv256 : ∀ b ∈ iv, b < 256) :
    ∃ ct, encrypt p keyB64 iv = .ok ct ∧ decrypt ct keyB64 = .ok p := by
  have hkey : importKey keyB64 = .ok kb := by
    unfold importKey
    rw [hkb]
    simp [hkl]
  refine ⟨btoa (iv ++ subtleEncrypt kb iv (textEncode p)), ?_, ?_⟩
  · unfold encrypt
    simp only [hkey]
  · exact decrypt_encrypt p keyB64 iv kb hkb hkl hiv hiv256

/-- Witness for C7 at a concrete plaintext containing `+`, `/` and `=`,
with the all-zero 32-byte key and IV. -/
theorem c7_witness :
    ("tok+/=en" ≠ "") ∧ atob (btoa (List.replicate 32 0)) = some (List.replicate 32 0) ∧
    (List.replicate 32 0 : List Nat).length = 32 ∧
    (List.replicate 12 0 : List Nat).length = 12 ∧
    (∀ b ∈ (List.replicate 12 0 : List Nat), b < 256) ∧
    ∃ ct, encrypt "tok+/=en" (btoa (List.replicate 32 0)) (List.replicate 12 0) = .ok ct ∧
      decrypt ct (btoa (List.replicate 32 0)) = .ok "tok+/=en" := by
  have hkb : atob (btoa (List.replicate 32 0)) = some (List.replicate 32 0) :=
    b64_decode_encode _ (by decide)
  exact ⟨by decide, hkb, by decide, by decide, by decide,
    c7_encrypt_decrypt_roundtrip "tok+/=en" (btoa (List.replicate 32 0))
      (List.replicate 12 0) (List.replicate 32 0)
      (by decide) hkb (by decide) (by decide) (by decide)⟩

/-- **C6.**  For every cache read via `getToken` where a stored entry
exists but is not a genuine encryption of any plaintext under the supplied
key — tampered or corrupt ciphertext, or a wrong decryption key —
`getToken` surfaces an error (the entry yields no usable token, as with a
miss) and never returns partial or garbage plaintext: by `decrypt_sound`,
a non-error result is only ever the exact plaintext of a genuine
encryption under that key. -/
theorem c6_getToken_fails_closed (db : List (String × String)) (ck k s : String)
    (hrow : kvLookup db ck = some s)
    (htamper : ¬ ∃ (p : String) (iv : List Nat), iv.length = 12 ∧
      (∀ b ∈ iv, b < 256) ∧ encrypt p k iv = .ok s) :
    ∃ e, getToken db ck k = .error e := by
  cases hdec : decrypt s k with
  | error e =>
    refine ⟨e, ?_⟩
    unfold getToken
    simp only [hrow, hdec]
  | ok p =>
    obtain ⟨kb, iv, _, _, hivl, hiv256, henc⟩ := decrypt_sound s k p hdec
    exact absurd ⟨p, iv, hivl, hiv256, henc⟩ htamper

/-- Witness for C6: a stored entry `"!!!!"` (not valid base64, hence not a
genuine encryption of anything) under the all-zero 32-byte key makes
`getToken` error. -/
theorem c6_witness :
    kvLookup [("alice", "!!!!")] "alice" = some "!!!!" ∧
    ∃ e, getToken [("alice", "!!!!")] "alice" (btoa (List.replicate 32 0)) = .error e := by
  have hkb : atob (btoa (List.replicate 32 0)) = some (List.replicate 32 0) :=
    b64_decode_encode _ (by decide)
  have hkey : importKey (btoa (List.replicate 32 0)) = .ok (List.replicate 32 0) := by
    unfold importKey
    rw [hkb]
    simp
  refine ⟨rfl, c6_getToken_fails_closed _ _ _ _ rfl ?_⟩
  rintro ⟨p, iv, hivl, hiv256, henc⟩
  unfold encrypt at henc
  simp only [hkey, Except.ok.injEq] at henc
  have h256 : ∀ b ∈ iv ++ subtleEncrypt (List.replicate 32 0) iv (textEncode p), b < 256 :=
    combined_bytes_lt _ _ _ (by decide) hiv256
  have hdec := b64_decode_encode _ h256
  have hdata : b64encodeBytes (iv ++ subtleEncrypt (List.replicate 32 0) iv (textEncode p))
      = "!!!!".data := congrArg String.data henc
  rw [hdata] at hdec
  have hnone : b64decodeChars "!!!!".data = none := rfl
  rw [hnone] at hdec
  exact absurd hdec (by simp)

/-- Shared witness helper: the all-zero 32-byte key imports successfully. -/
theorem k32_key : importKey (btoa (List.replicate 32 0)) = .ok (List.replicate 32 0) := by
  have hkb : atob (btoa (List.replicate 32 0)) = some (List.replicate 32 0) :=
    b64_decode_encode _ (by decide)
  unfold importKey
  rw [hkb]
  simp

/-- Shared witness helper: encrypting under the all-zero key and IV yields
the expected ciphertext. -/
theorem k32_encrypt (p : String) :
    encrypt p (btoa (List.replicate 32 0)) (List.replicate 12 0) =
      .ok (btoa (List.replicate 12 0 ++
        subtleEncrypt (List.replicate 32 0) (List.replicate 12 0) (textEncode p))) := by
  unfold encrypt
  simp only [k32_key]

/-- **C2.**  `getOrRefreshToken`: (1) with an in-memory token the token is
returned and the state — cache, script, log — is untouched (zero cache
reads, zero logins); (2) with no in-memory token but a decryptable cached
entry, the cached token is returned and remembered after exactly one cache
read and no upstream request; (3) with no in-memory token and no cache
entry, exactly one login request is made, and on its success the returned
token is persisted to the cache encrypted under the next fresh IV and held
in memory. -/
theorem c2_getOrRefreshToken_policy (c : MeitreCredentials) (ek : String) :
    (∀ (db : List (String × String)) (rst : Option String) (ivs : Nat → List Nat)
      (n : Nat) (sc : List UResp) (lg : List Ev) (t : String),
      getOrRefreshToken c ek ⟨db, some t, rst, ivs, n, sc, lg⟩ =
        (.ok t, ⟨db, some t, rst, ivs, n, sc, lg⟩)) ∧
    (∀ (db : List (String × String)) (rst : Option String) (ivs : Nat → List Nat)
      (n : Nat) (sc : List UResp) (lg : List Ev) (st p : String),
      kvLookup db c.username = some st →
      decrypt st ek = .ok p →
      getOrRefreshToken c ek ⟨db, none, rst, ivs, n, sc, lg⟩ =
        (.ok p, ⟨db, some p, rst, ivs, n, sc, lg ++ [Ev.dbGet c.username]⟩)) ∧
    (∀ (db : List (String × String)) (rst : Option String) (ivs : Nat → List Nat)
      (n : Nat) (lg : List Ev) (ls : Nat) (tk : String) (rest : List UResp) (ct : String),
      kvLookup db c.username = none →
      resOk ls = true → encrypt tk ek (ivs n) = .ok ct →
      getOrRefreshToken c ek ⟨db, none, rst, ivs, n, ⟨ls, UBody.tok tk⟩ :: rest, lg⟩ =
        (.ok tk, ⟨kvSet db c.username ct, some tk, rst, ivs, n + 1, rest,
          lg ++ [Ev.dbGet c.username, Ev.httpReq loginUrl none, Ev.dbSet c.username]⟩)) := by
  refine ⟨?_, ?_, ?_⟩
  · intro db rst ivs n sc lg t
    rfl
  · intro db rst ivs n sc lg st p h1 h2
    simp only [getOrRefreshToken, getToken, h1, h2]
  · intro db rst ivs n lg ls tk rest ct h1 h2 h3
    simp only [getOrRefreshToken, getToken, h1, login, httpFetch, setTokenM, h2, h3]
    simp [List.append_assoc]

/-- Witness for C2 on its login branch: empty cache, one scripted login
response, all-zero key and IVs. -/
theorem c2_witness :
    kvLookup ([] : List (String × String)) "alice" = none ∧
    resOk 200 = true ∧
    encrypt "tk" (btoa (List.replicate 32 0)) ((fun _ => List.replicate 12 0) 0) =
      .ok (btoa (List.replicate 12 0 ++
        subtleEncrypt (List.replicate 32 0) (List.replicate 12 0) (textEncode "tk"))) ∧
    getOrRefreshToken ⟨"alice", "pw", none⟩ (btoa (List.replicate 32 0))
      ⟨[], none, none, fun _ => List.replicate 12 0, 0, [⟨200, UBody.tok "tk"⟩], []⟩ =
    (.ok "tk",
     ⟨kvSet [] "alice" (btoa (List.replicate 12 0 ++
        subtleEncrypt (List.replicate 32 0) (List.replicate 12 0) (textEncode "tk"))),
      some "tk", none, fun _ => List.replicate 12 0, 0 + 1, [],
      [] ++ [Ev.dbGet "alice", Ev.httpReq loginUrl none, Ev.dbSet "alice"]⟩) :=
  ⟨rfl, by decide, k32_encrypt "tk",
    (c2_getOrRefreshToken_policy ⟨"alice", "pw", none⟩ (btoa (List.replicate 32 0))).2.2
      [] none (fun _ => List.replicate 12 0) 0 [] 200 "tk" [] _
      rfl (by decide) (k32_encrypt "tk")⟩

/-- **C1.**  `MeitreAPI.fetch` with a 401 on the first upstream attempt:
the cached token row for the cache key is deleted, exactly one fresh login
request is issued (whose token is re-persisted encrypted), and the same URL
is retried exactly once with the new token.  The retry's outcome is final:
an ok status returns its body, any failing status (including a second 401)
returns the terminal `Meitre API error`, and in either case the script
shows no third attempt — only the two requests to the URL and the one
login appear, and `rest` is left unconsumed. -/
theorem c1_fetch_401_retry_policy (c : MeitreCredentials) (ek path : String)
    (db : List (String × String)) (t r nt ct : String) (b0 : UBody) (ls : Nat)
    (rr : UResp) (rest : List UResp) (ivs : Nat → List Nat) (n : Nat) (lg : List Ev)
    (hls : resOk ls = true)
    (hct : encrypt nt ek (ivs n) = .ok ct) :
    apiFetch c ek path
      ⟨db, some t, some r, ivs, n, ⟨401, b0⟩ :: ⟨ls, UBody.tok nt⟩ :: rr :: rest, lg⟩ =
    ((if resOk rr.status then Except.ok rr.body
      else Except.error ("Meitre API error: " ++ toString rr.status ++ " " ++
        UBody.textOf rr.body)),
     ⟨kvSet (kvRemove db c.username) c.username ct, some nt, some r, ivs, n + 1, rest,
      lg ++ [Ev.httpReq (scopedUrl r path) (some t),
             Ev.dbDelete c.username,
             Ev.httpReq loginUrl none,
             Ev.dbSet c.username,
             Ev.httpReq (scopedUrl r path) (some nt)]⟩) := by
  simp only [apiFetch, getOrRefreshToken, getRestaurant, httpFetch, login, setTokenM,
    hls, hct]
  simp [List.append_assoc]
  split <;> rfl

/-- Witness for C1: 401 then successful login then 200 retry, on a concrete
state with an in-memory token and resolved scope. -/
theorem c1_witness :
    resOk 200 = true ∧
    encrypt "newTok" (btoa (List.replicate 32 0)) ((fun _ => List.replicate 12 0) 0) =
      .ok (btoa (List.replicate 12 0 ++
        subtleEncrypt (List.replicate 32 0) (List.replicate 12 0) (textEncode "newTok"))) ∧
    apiFetch ⟨"alice", "pw", none⟩ (btoa (List.replicate 32 0)) "areas"
      ⟨[("alice", "old")], some "t0", some "r0", fun _ => List.replicate 12 0, 0,
       [⟨401, UBody.raw "x"⟩, ⟨200, UBody.tok "newTok"⟩, ⟨200, UBody.raw "ok"⟩], []⟩ =
    ((if resOk (⟨200, UBody.raw "ok"⟩ : UResp).status
      then Except.ok (⟨200, UBody.raw "ok"⟩ : UResp).body
      else Except.error ("Meitre API error: " ++
        toString (⟨200, UBody.raw "ok"⟩ : UResp).status ++ " " ++
        UBody.textOf (⟨200, UBody.raw "ok"⟩ : UResp).body)),
     ⟨kvSet (kvRemove [("alice", "old")] "alice") "alice"
        (btoa (List.replicate 12 0 ++
          subtleEncrypt (List.replicate 32 0) (List.replicate 12 0) (textEncode "newTok"))),
      some "newTok", some "r0", fun _ => List.replicate 12 0, 0 + 1, [],
      [] ++ [Ev.httpReq (scopedUrl "r0" "areas") (some "t0"),
             Ev.dbDelete "alice",
             Ev.httpReq loginUrl none,
             Ev.dbSet "alice",
             Ev.httpReq (scopedUrl "r0" "areas") (some "newTok")]⟩) :=
  ⟨by decide, k32_encrypt "newTok",
    c1_fetch_401_retry_policy ⟨"alice", "pw", none⟩ (btoa (List.replicate 32 0)) "areas"
      [("alice", "old")] "t0" "r0" "newTok" _ (UBody.raw "x") 200
      ⟨200, UBody.raw "ok"⟩ [] (fun _ => List.replicate 12 0) 0 []
      (by decide) (k32_encrypt "newTok")⟩

/-- **C5.**  `getRestaurant` scope resolution: an explicitly set scope is
used as is, with no restaurant listing and no state change; with no scope
set, the account's restaurants are listed — zero restaurants is the fatal
`No restaurants found` error, more than one is the distinct fatal
`Multiple restaurants found` disambiguation error, and exactly one is
auto-selected (its `subdomainPrefix`, remembered in the state).  The two
failure messages are different, so the cases are distinguishable. -/
theorem c5_scope_resolution (c : MeitreCredentials) (ek : String) :
    (∀ (db : List (String × String)) (tk : Option String) (r : String)
      (ivs : Nat → List Nat) (n : Nat) (sc : List UResp) (lg : List Ev),
      getRestaurant c ek ⟨db, tk, some r, ivs, n, sc, lg⟩ =
        (.ok r, ⟨db, tk, some r, ivs, n, sc, lg⟩)) ∧
    (∀ (db : List (String × String)) (t : String) (ivs : Nat → List Nat) (n : Nat)
      (st : Nat) (rest : List UResp) (lg : List Ev), resOk st = true →
      getRestaurant c ek ⟨db, some t, none, ivs, n, ⟨st, UBody.restos []⟩ :: rest, lg⟩ =
        (.error noRestaurantsMsg,
         ⟨db, some t, none, ivs, n, rest, lg ++ [Ev.httpReq restaurantsUrl (some t)]⟩)) ∧
    (∀ (db : List (String × String)) (t : String) (ivs : Nat → List Nat) (n : Nat)
      (st : Nat) (rest : List UResp) (lg : List Ev) (r1 r2 : MeitreRestaurant)
      (rs : List MeitreRestaurant), resOk st = true →
      getRestaurant c ek
        ⟨db, some t, none, ivs, n, ⟨st, UBody.restos (r1 :: r2 :: rs)⟩ :: rest, lg⟩ =
        (.error multipleRestaurantsMsg,
         ⟨db, some t, none, ivs, n, rest, lg ++ [Ev.httpReq restaurantsUrl (some t)]⟩)) ∧
    (∀ (db : List (String × String)) (t : String) (ivs : Nat → List Nat) (n : Nat)
      (st : Nat) (rest : List UResp) (lg : List Ev) (r0 : MeitreRestaurant),
      resOk st = true →
      getRestaurant c ek ⟨db, some t, none, ivs, n, ⟨st, UBody.restos [r0]⟩ :: rest, lg⟩ =
        (.ok (MeitreRestaurant.subdomainPrefix r0),
         ⟨db, some t, some (MeitreRestaurant.subdomainPrefix r0), ivs, n, rest,
          lg ++ [Ev.httpReq restaurantsUrl (some t)]⟩)) ∧
    noRestaurantsMsg ≠ multipleRestaurantsMsg := by
  refine ⟨?_, ?_, ?_, ?_, by decide⟩
  · intro db tk r ivs n sc lg
    rfl
  · intro db t ivs n st rest lg hst
    simp only [getRestaurant, listRestaurants, getOrRefreshToken, httpFetch, hst, if_true]
  · intro db t ivs n st rest lg r1 r2 rs hst
    simp only [getRestaurant, listRestaurants, getOrRefreshToken, httpFetch, hst, if_true]
  · intro db t ivs n st rest lg r0 hst
    simp only [getRestaurant, listRestaurants, getOrRefreshToken, httpFetch, hst, if_true]

/-- Witness for C5 on the auto-select branch with a concrete single
restaurant. -/
theorem c5_witness :
    resOk 200 = true ∧
    getRestaurant ⟨"alice", "pw", none⟩ "key"
      ⟨[], some "t0", none, fun _ => [], 0,
       [⟨200, UBody.restos [⟨1, "Resto", "rst", "Addr 1", "UTC"⟩]⟩], []⟩ =
    (.ok (MeitreRestaurant.subdomainPrefix ⟨1, "Resto", "rst", "Addr 1", "UTC"⟩),
     ⟨[], some "t0", some (MeitreRestaurant.subdomainPrefix ⟨1, "Resto", "rst", "Addr 1", "UTC"⟩),
      fun _ => [], 0, [], [] ++ [Ev.httpReq restaurantsUrl (some "t0")]⟩) :=
  ⟨by decide,
    (c5_scope_resolution ⟨"alice", "pw", none⟩ "key").2.2.2.1
      [] "t0" (fun _ => []) 0 200 [] [] ⟨1, "Resto", "rst", "Addr 1", "UTC"⟩
      (by decide)⟩

/-- **C9.**  `MeitreAPI.listRestaurants` on an upstream 401: the call fails
immediately with the `Meitre API error: 401` message; the cache row is not
deleted, no login request is issued, and the request is not retried — the
final state differs from the initial one only by the single logged request
and the one consumed script entry.  This holds both when the token was
already in memory and when it was just read from the cache; the
single-retry-on-401 recovery lives only in `apiFetch` (`MeitreAPI.fetch`),
compare `c1_fetch_401_retry_policy`. -/
theorem c9_listRestaurants_401_terminal (c : MeitreCredentials) (ek : String) :
    (∀ (db : List (String × String)) (t : String) (rst : Option String)
      (ivs : Nat → List Nat) (n : Nat) (b : UBody) (rest : List UResp) (lg : List Ev),
      listRestaurants c ek ⟨db, some t, rst, ivs, n, ⟨401, b⟩ :: rest, lg⟩ =
        (.error ("Meitre API error: " ++ toString (401 : Nat)),
         ⟨db, some t, rst, ivs, n, rest, lg ++ [Ev.httpReq restaurantsUrl (some t)]⟩)) ∧
    (∀ (db : List (String × String)) (st p : String) (rst : Option String)
      (ivs : Nat → List Nat) (n : Nat) (b : UBody) (rest : List UResp) (lg : List Ev),
      kvLookup db c.username = some st → decrypt st ek = .ok p →
      listRestaurants c ek ⟨db, none, rst, ivs, n, ⟨401, b⟩ :: rest, lg⟩ =
        (.error ("Meitre API error: " ++ toString (401 : Nat)),
         ⟨db, some p, rst, ivs, n, rest,
          lg ++ [Ev.dbGet c.username, Ev.httpReq restaurantsUrl (some p)]⟩)) := by
  constructor
  · intro db t rst ivs n b rest lg
    simp [listRestaurants, getOrRefreshToken, httpFetch, resOk]
  · intro db st p rst ivs n b rest lg h1 h2
    simp [listRestaurants, getOrRefreshToken, getToken, httpFetch, h1, h2, resOk]

/-- Witness for C9: both conjuncts at concrete states — an in-memory token,
and a cached entry encrypted under the all-zero key. -/
theorem c9_witness :
    listRestaurants ⟨"alice", "pw", none⟩ "key"
      ⟨[("alice", "row")], some "t0", none, fun _ => [], 0, [⟨401, UBody.raw "x"⟩], []⟩ =
    (.error ("Meitre API error: " ++ toString (401 : Nat)),
     ⟨[("alice", "row")], some "t0", none, fun _ => [], 0, [],
      [] ++ [Ev.httpReq restaurantsUrl (some "t0")]⟩) ∧
    kvLookup [("alice", btoa (List.replicate 12 0 ++
      subtleEncrypt (List.replicate 32 0) (List.replicate 12 0) (textEncode "ct")))]
      "alice" = some (btoa (List.replicate 12 0 ++
      subtleEncrypt (List.replicate 32 0) (List.replicate 12 0) (textEncode "ct"))) ∧
    decrypt (btoa (List.replicate 12 0 ++
      subtleEncrypt (List.replicate 32 0) (List.replicate 12 0) (textEncode "ct")))
      (btoa (List.replicate 32 0)) = .ok "ct" ∧
    listRestaurants ⟨"alice", "pw", none⟩ (btoa (List.replicate 32 0))
      ⟨[("alice", btoa (List.replicate 12 0 ++
          subtleEncrypt (List.replicate 32 0) (List.replicate 12 0) (textEncode "ct")))],
       none, none, fun _ => [], 0, [⟨401, UBody.raw "x"⟩], []⟩ =
    (.error ("Meitre API error: " ++ toString (401 : Nat)),
     ⟨[("alice", btoa (List.replicate 12 0 ++
        subtleEncrypt (List.replicate 32 0) (List.replicate 12 0) (textEncode "ct")))],
      some "ct", none, fun _ => [], 0, [],
      [] ++ [Ev.dbGet "alice", Ev.httpReq restaurantsUrl (some "ct")]⟩) := by
  have hdec : decrypt (btoa (List.replicate 12 0 ++
      subtleEncrypt (List.replicate 32 0) (List.replicate 12 0) (textEncode "ct")))
      (btoa (List.replicate 32 0)) = .ok "ct" :=
    decrypt_encrypt "ct" (btoa (List.replicate 32 0)) (List.replicate 12 0)
      (List.replicate 32 0) (b64_decode_encode _ (by decide)) (by decide)
      (by decide) (by decide)
  exact ⟨(c9_listRestaurants_401_terminal ⟨"alice", "pw", none⟩ "key").1
      [("alice", "row")] "t0" none (fun _ => []) 0 (UBody.raw "x") [] [],
    rfl, hdec,
    (c9_listRestaurants_401_terminal ⟨"alice", "pw", none⟩ (btoa (List.replicate 32 0))).2
      _ _ "ct" none (fun _ => []) 0 (UBody.raw "x") [] [] rfl hdec⟩

/-- **C8.**  `fetch_dates` with no explicit `startDate`: the result is
exactly the upstream calendar entries marked available whose parsed date
lies in the inclusive window `[now, now + 15 days]` (in milliseconds,
`15 * 24 * 60 * 60 * 1000`), each rendered by `dateOnly` — the part of the
date string before any `T`, so no time component survives.  The membership
characterisation and the absence of `T` are stated alongside the exact
result. -/
theorem c8_fetch_dates_default_window (c : MeitreCredentials)
    (ek serviceType : String) (partySize : Int) (areaId menuId : Option Int)
    (nowMs : Int) (dateParse : String → Int) (db : List (String × String))
    (t r : String) (st : Nat) (cs : List CalEntry) (rest : List UResp)
    (ivs : Nat → List Nat) (n : Nat) (lg : List Ev)
    (hok : resOk st = true) :
    fetchDatesExecute c ek partySize serviceType areaId menuId none nowMs dateParse
      ⟨db, some t, some r, ivs, n, ⟨st, UBody.cal cs⟩ :: rest, lg⟩ =
    (.ok (((cs.filter (fun d => d.isAvailable)).filter
        (fun d => decide (nowMs ≤ dateParse d.date) &&
          decide (dateParse d.date ≤ nowMs + 15 * 24 * 60 * 60 * 1000))).map
      (fun d => dateOnly d.date)),
     ⟨db, some t, some r, ivs, n, rest,
      lg ++ [Ev.httpReq (scopedUrl r ("availabilities/calendarnew?" ++
        calendarQuery partySize serviceType areaId menuId)) (some t)]⟩) ∧
    (∀ d, d ∈ ((cs.filter (fun d => d.isAvailable)).filter
        (fun d => decide (nowMs ≤ dateParse d.date) &&
          decide (dateParse d.date ≤ nowMs + 15 * 24 * 60 * 60 * 1000))).map
      (fun d => dateOnly d.date) ↔
      ∃ e ∈ cs, e.isAvailable = true ∧ nowMs ≤ dateParse e.date ∧
        dateParse e.date ≤ nowMs + 15 * 24 * 60 * 60 * 1000 ∧ d = dateOnly e.date) ∧
    (∀ d ∈ ((cs.filter (fun d => d.isAvailable)).filter
        (fun d => decide (nowMs ≤ dateParse d.date) &&
          decide (dateParse d.date ≤ nowMs + 15 * 24 * 60 * 60 * 1000))).map
      (fun d => dateOnly d.date), ∀ ch ∈ d.data, ch ≠ 'T') := by
  have h401 : ¬ (st = 401) := by
    simp [resOk] at hok
    omega
  refine ⟨?_, ?_, ?_⟩
  · simp only [fetchDatesExecute, getCalendar, apiFetch, getOrRefreshToken, getRestaurant,
      httpFetch, h401, if_false, hok, if_true]
  · intro d
    simp only [List.mem_map, List.mem_filter, Bool.and_eq_true, decide_eq_true_eq]
    constructor
    · rintro ⟨e, ⟨⟨he, hav⟩, h1, h2⟩, hd⟩
      exact ⟨e, he, hav, h1, h2, hd.symm⟩
    · rintro ⟨e, he, hav, h1, h2, hd⟩
      exact ⟨e, ⟨⟨he, hav⟩, h1, h2⟩, hd.symm⟩
  · intro d hd ch hch
    simp only [List.mem_map] at hd
    obtain ⟨e, _, hd⟩ := hd
    subst hd
    have hpred := List.mem_takeWhile_imp hch
    simp at hpred
    exact hpred

/-- Witness for C8 at a concrete calendar and a constant date parser. -/
theorem c8_witness :
    resOk 200 = true ∧
    fetchDatesExecute ⟨"alice", "pw", none⟩ "key" 2 "dinner" none none none 0
      (fun _ => 0)
      ⟨[], some "t0", some "r0", fun _ => [], 0,
       [⟨200, UBody.cal [⟨"2026-10-12T00:00:00", true, false⟩,
          ⟨"2026-10-13", false, false⟩]⟩], []⟩ =
    (.ok ((([⟨"2026-10-12T00:00:00", true, false⟩,
          ⟨"2026-10-13", false, false⟩].filter (fun d : CalEntry => d.isAvailable)).filter
        (fun d => decide ((0 : Int) ≤ (fun _ => (0 : Int)) d.date) &&
          decide ((fun _ => (0 : Int)) d.date ≤ (0 : Int) + 15 * 24 * 60 * 60 * 1000))).map
      (fun d => dateOnly d.date)),
     ⟨[], some "t0", some "r0", fun _ => [], 0, [],
      [] ++ [Ev.httpReq (scopedUrl "r0" ("availabilities/calendarnew?" ++
        calendarQuery 2 "dinner" none none)) (some "t0")]⟩) :=
  ⟨by decide,
    (c8_fetch_dates_default_window ⟨"alice", "pw", none⟩ "key" "dinner" 2 none none 0
      (fun _ => 0) [] "t0" "r0" 200
      [⟨"2026-10-12T00:00:00", true, false⟩, ⟨"2026-10-13", false, false⟩]
      [] (fun _ => []) 0 [] (by decide)).1⟩

/-- **C3 (counterexample).**  The claim's second half — that the validation
failure response is distinct from execution-time (upstream) error
responses — fails on the code: a `tools/call` with arguments failing the
schema is answered with error code `-32603`, the very same code the
dispatcher uses for an execution-time upstream failure (both are produced
by the one top-level `catch`).  Execution is indeed short-circuited
(`execLog = []`), but the two error classes share the code and differ only
in message. -/
theorem c3_counterexample :
    (handleMcpRequest ⟨JsValue.num 1, "tools/call",
        JsValue.obj [("name", JsValue.str "cancel_reservation"),
          ("arguments", JsValue.obj [])]⟩
      false (fun _ _ => Except.ok JsValue.null)).resp.error =
      some ⟨-32603, "Required: reservationId"⟩ ∧
    (handleMcpRequest ⟨JsValue.num 1, "tools/call",
        JsValue.obj [("name", JsValue.str "cancel_reservation"),
          ("arguments", JsValue.obj [])]⟩
      false (fun _ _ => Except.ok JsValue.null)).execLog = [] ∧
    (handleMcpRequest ⟨JsValue.num 2, "tools/call",
        JsValue.obj [("name", JsValue.str "cancel_reservation"),
          ("arguments", JsValue.obj [("reservationId", JsValue.num 5)])]⟩
      false (fun _ _ => Except.error "Meitre API error: 500 boom")).resp.error =
      some ⟨-32603, "Meitre API error: 500 boom"⟩ :=
  ⟨rfl, rfl, rfl⟩

/-- **C3 (amended).**  For every `tools/call` request whose arguments fail
the named tool's parameter schema, the tool's `execute` function is never
invoked (validation short-circuits execution), and the response is the
`-32603` internal error carrying the validation failure message — the same
error code as execution-time (upstream) errors, distinguishable only by
message. -/
theorem c3_validation_short_circuits (req : McpRequest) (hdr : Bool)
    (exec : String → JsValue → Except String JsValue)
    (kvs : List (String × JsValue)) (n : String) (fields : List SField)
    (argsRaw : JsValue) (m : String)
    (hm : req.method = "tools/call")
    (hp : req.params = JsValue.obj kvs)
    (hn : jsLookupField kvs "name" = some (JsValue.str n))
    (hs : toolSchema n = some fields)
    (ha : jsLookupField kvs "arguments" = some argsRaw)
    (hz : zodParse fields (coalesceArgs argsRaw) = .error m) :
    (handleMcpRequest req hdr exec).execLog = [] ∧
    (handleMcpRequest req hdr exec).resp = ⟨req.id, none, some ⟨-32603, m⟩⟩ := by
  simp [handleMcpRequest, hm, hp, jsGetField, jsTemplateStr, Option.getD, hn, ha, hs, hz]

/-- Witness for the amended C3 at a concrete invalid request. -/
theorem c3_witness :
    jsLookupField [("name", JsValue.str "cancel_reservation"),
      ("arguments", JsValue.obj [])] "name" = some (JsValue.str "cancel_reservation") ∧
    toolSchema "cancel_reservation" =
      some [restaurantField, ⟨"reservationId", FType.fnum, true⟩] ∧
    zodParse [restaurantField, ⟨"reservationId", FType.fnum, true⟩]
      (coalesceArgs (JsValue.obj [])) = .error "Required: reservationId" ∧
    (handleMcpRequest ⟨JsValue.num 1, "tools/call",
        JsValue.obj [("name", JsValue.str "cancel_reservation"),
          ("arguments", JsValue.obj [])]⟩
      true (fun _ _ => Except.ok JsValue.null)).execLog = [] ∧
    (handleMcpRequest ⟨JsValue.num 1, "tools/call",
        JsValue.obj [("name", JsValue.str "cancel_reservation"),
          ("arguments", JsValue.obj [])]⟩
      true (fun _ _ => Except.ok JsValue.null)).resp =
      ⟨JsValue.num 1, none, some ⟨-32603, "Required: reservationId"⟩⟩ := by
  have h := c3_validation_short_circuits
    ⟨JsValue.num 1, "tools/call",
      JsValue.obj [("name", JsValue.str "cancel_reservation"),
        ("arguments", JsValue.obj [])]⟩
    true (fun _ _ => Except.ok JsValue.null)
    [("name", JsValue.str "cancel_reservation"), ("arguments", JsValue.obj [])]
    "cancel_reservation" [restaurantField, ⟨"reservationId", FType.fnum, true⟩]
    (JsValue.obj []) "Required: reservationId" rfl rfl rfl rfl rfl rfl
  exact ⟨rfl, rfl, rfl, h.1, h.2⟩

/-- **C4.**  For every valid `tools/call` (known tool, validating
arguments, successful execution), the response's `structuredContent` is
`wrapStructured` of the tool result: an array result is wrapped as the
single object `{ items: ... }` — `structuredContent` is never a bare array
— and a non-array result is used unchanged.  Exactly one execution is
recorded. -/
theorem c4_structured_content_wraps_arrays (req : McpRequest) (hdr : Bool)
    (exec : String → JsValue → Except String JsValue)
    (kvs : List (String × JsValue)) (n : String) (fields : List SField)
    (argsRaw parsed v : JsValue)
    (hm : req.method = "tools/call")
    (hp : req.params = JsValue.obj kvs)
    (hn : jsLookupField kvs "name" = some (JsValue.str n))
    (hs : toolSchema n = some fields)
    (ha : jsLookupField kvs "arguments" = some argsRaw)
    (hz : zodParse fields (coalesceArgs argsRaw) = .ok parsed)
    (hx : exec n parsed = .ok v) :
    (handleMcpRequest req hdr exec).resp =
      ⟨req.id, some (JsValue.obj
        [("content", JsValue.arr [JsValue.obj
          [("type", JsValue.str "text"), ("text", JsValue.str (jsStringify v))]]),
         ("structuredContent", wrapStructured v)]), none⟩ ∧
    (handleMcpRequest req hdr exec).execLog = [(n, parsed)] ∧
    (∀ xs, v = JsValue.arr xs → wrapStructured v = JsValue.obj [("items", JsValue.arr xs)]) ∧
    ((∀ xs, v ≠ JsValue.arr xs) → wrapStructured v = v) ∧
    (∀ xs, wrapStructured v ≠ JsValue.arr xs) := by
  refine ⟨?_, ?_, ?_, ?_, ?_⟩
  · simp [handleMcpRequest, hm, hp, jsGetField, jsTemplateStr, Option.getD, hn, ha, hs, hz, hx]
  · simp [handleMcpRequest, hm, hp, jsGetField, jsTemplateStr, Option.getD, hn, ha, hs, hz, hx]
  · intro xs hv
    subst hv
    rfl
  · intro hv
    cases v with
    | arr xs => exact absurd rfl (hv xs)
    | undefined => rfl
    | null => rfl
    | bool b => rfl
    | num nn => rfl
    | str s => rfl
    | obj kvs2 => rfl
  · intro xs
    cases v <;> simp [wrapStructured]

/-- Witness for C4: `list_restaurants` returning an array result, wrapped
under `items`. -/
theorem c4_witness :
    jsLookupField [("name", JsValue.str "list_restaurants"),
      ("arguments", JsValue.obj [])] "name" = some (JsValue.str "list_restaurants") ∧
    zodParse [] (coalesceArgs (JsValue.obj [])) = .ok (JsValue.obj []) ∧
    (handleMcpRequest ⟨JsValue.str "id7", "tools/call",
        JsValue.obj [("name", JsValue.str "list_restaurants"),
          ("arguments", JsValue.obj [])]⟩
      false (fun _ _ => Except.ok (JsValue.arr [JsValue.str "x"]))).resp =
      ⟨JsValue.str "id7", some (JsValue.obj
        [("content", JsValue.arr [JsValue.obj
          [("type", JsValue.str "text"),
           ("text", JsValue.str (jsStringify (JsValue.arr [JsValue.str "x"])))]]),
         ("structuredContent", wrapStructured (JsValue.arr [JsValue.str "x"]))]), none⟩ ∧
    wrapStructured (JsValue.arr [JsValue.str "x"]) =
      JsValue.obj [("items", JsValue.arr [JsValue.str "x"])] := by
  have h := c4_structured_content_wraps_arrays
    ⟨JsValue.str "id7", "tools/call",
      JsValue.obj [("name", JsValue.str "list_restaurants"),
        ("arguments", JsValue.obj [])]⟩
    false (fun _ _ => Except.ok (JsValue.arr [JsValue.str "x"]))
    [("name", JsValue.str "list_restaurants"), ("arguments", JsValue.obj [])]
    "list_restaurants" [] (JsValue.obj []) (JsValue.obj [])
    (JsValue.arr [JsValue.str "x"]) rfl rfl rfl rfl rfl rfl rfl
  exact ⟨rfl, rfl, h.1, h.2.2.1 [JsValue.str "x"] rfl⟩

/-- **C10 (counterexample).**  The claim says every `tools/call` whose
`params` is absent *or not an object* throws at `params.name` and is
answered `-32603`, not `-32601`.  But a primitive non-object `params`
(here the number `7`) does not throw in JavaScript: `params.name` is
`undefined`, `tools[undefined]` misses, and the response is
`-32601 Unknown tool: undefined`. -/
theorem c10_counterexample :
    (handleMcpRequest ⟨JsValue.num 1, "tools/call", JsValue.num 7⟩ false
      (fun _ _ => Except.ok JsValue.null)).resp.error =
      some ⟨-32601, "Unknown tool: undefined"⟩ ∧
    ¬ (handleMcpRequest ⟨JsValue.num 1, "tools/call", JsValue.num 7⟩ false
      (fun _ _ => Except.ok JsValue.null)).resp.error =
      some ⟨-32603, "Unknown tool: undefined"⟩ ∧
    ((-32601 : Int) ≠ -32603) := by
  refine ⟨rfl, ?_, by decide⟩
  intro h
  simp [handleMcpRequest, jsGetField, jsTemplateStr, toolSchema] at h

/-- **C10 (amended).**  For every `tools/call` whose `params` is absent
(`undefined`) or `null`, the dispatcher throws while reading `params.name`
and answers with `-32603` (not `-32601` and not an invalid-params error),
echoing the request id, with no tool executed; whereas a primitive
non-object `params` (number, string, boolean) does not throw — `params.name`
is `undefined` and the request is answered `-32601 Unknown tool: undefined`. -/
theorem c10_params_not_object (req : McpRequest) (hdr : Bool)
    (exec : String → JsValue → Except String JsValue)
    (hm : req.method = "tools/call") :
    ((req.params = JsValue.undefined ∨ req.params = JsValue.null) →
      ∃ msg, (handleMcpRequest req hdr exec).resp = ⟨req.id, none, some ⟨-32603, msg⟩⟩ ∧
        (handleMcpRequest req hdr exec).execLog = []) ∧
    (∀ nn : Int, req.params = JsValue.num nn →
      (handleMcpRequest req hdr exec).resp =
        ⟨req.id, none, some ⟨-32601, "Unknown tool: undefined"⟩⟩ ∧
      (handleMcpRequest req hdr exec).execLog = []) ∧
    (∀ s, req.params = JsValue.str s →
      (handleMcpRequest req hdr exec).resp =
        ⟨req.id, none, some ⟨-32601, "Unknown tool: undefined"⟩⟩ ∧
      (handleMcpRequest req hdr exec).execLog = []) ∧
    (∀ b, req.params = JsValue.bool b →
      (handleMcpRequest req hdr exec).resp =
        ⟨req.id, none, some ⟨-32601, "Unknown tool: undefined"⟩⟩ ∧
      (handleMcpRequest req hdr exec).execLog = []) := by
  refine ⟨?_, ?_, ?_, ?_⟩
  · rintro (hp | hp)
    · exact ⟨"Cannot read properties of undefined (reading name)",
        by simp [handleMcpRequest, hm, hp, jsGetField],
        by simp [handleMcpRequest, hm, hp, jsGetField]⟩
    · exact ⟨"Cannot read properties of null (reading name)",
        by simp [handleMcpRequest, hm, hp, jsGetField],
        by simp [handleMcpRequest, hm, hp, jsGetField]⟩
  · intro nn hp
    constructor <;> simp [handleMcpRequest, hm, hp, jsGetField, jsTemplateStr, toolSchema]
  · intro s hp
    constructor <;> simp [handleMcpRequest, hm, hp, jsGetField, jsTemplateStr, toolSchema]
  · intro b hp
    constructor <;> simp [handleMcpRequest, hm, hp, jsGetField, jsTemplateStr, toolSchema]

/-- Witness for the amended C10: absent params give `-32603` with the id
echoed; numeric params give `-32601`. -/
theorem c10_witness :
    ("tools/call" : String) = "tools/call" ∧
    (∃ msg, (handleMcpRequest ⟨JsValue.num 3, "tools/call", JsValue.undefined⟩ false
        (fun _ _ => Except.ok JsValue.null)).resp =
      ⟨JsValue.num 3, none, some ⟨-32603, msg⟩⟩ ∧
      (handleMcpRequest ⟨JsValue.num 3, "tools/call", JsValue.undefined⟩ false
        (fun _ _ => Except.ok JsValue.null)).execLog = []) ∧
    ((handleMcpRequest ⟨JsValue.num 4, "tools/call", JsValue.num 7⟩ false
        (fun _ _ => Except.ok JsValue.null)).resp =
      ⟨JsValue.num 4, none, some ⟨-32601, "Unknown tool: undefined"⟩⟩ ∧
      (handleMcpRequest ⟨JsValue.num 4, "tools/call", JsValue.num 7⟩ false
        (fun _ _ => Except.ok JsValue.null)).execLog = []) :=
  ⟨rfl,
    (c10_params_not_object ⟨JsValue.num 3, "tools/call", JsValue.undefined⟩ false
      (fun _ _ => Except.ok JsValue.null) rfl).1 (Or.inl rfl),
    (c10_params_not_object ⟨JsValue.num 4, "tools/call", JsValue.num 7⟩ false
      (fun _ _ => Except.ok JsValue.null) rfl).2.1 7 rfl⟩
